import Mathlib

/-!
Verification of the Monkey front end (lexer, AST, Pratt parser).

Shallow embedding of the Go sources:
* `src/unnamed/part_002` — package `lexer`
* `src/ast/ast.go` (second, authoritative version) — package `ast`
* `src/parser/parser.go` (second, authoritative version) — package `parser`

The `token` package is not present under `src/`; its token kinds are fully
determined by the lexer/parser sources, while the kind spellings and the
keyword table are modelled from the spec (§3, §4.1).

Go's unbounded recursion and `for` loops are embedded with an explicit fuel
parameter: a result of `none` at every fuel means the Go code diverges.
-/

namespace Monkey

/-- Token kinds. The closed set is exactly the set of `token.X` constants the
lexer and parser reference (spec §3 lists the same set). -/
inductive TokenType where
  | ILLEGAL | EOF
  | IDENT | INT
  | ASSIGN | PLUS | MINUS | BANG | ASTERISK | SLASH | LT | GT | EQ | NOT_EQ
  | COMMA | SEMICOLON | LPAREN | RPAREN | LBRACE | RBRACE
  | FUNCTION | LET | TRUE | FALSE | IF | ELSE | RETURN
  deriving DecidableEq, Repr

/-- Modelled from the spec: in the missing `token` package each `TokenType` is
a string constant; §3 gives the canonical spellings (operators and delimiters
spell as their symbol, keywords and atoms as their upper-case tag).  This is
the string `%s` prints in parser error messages. -/
def TokenType.str : TokenType → String
  | .ILLEGAL => "ILLEGAL"
  | .EOF => "EOF"
  | .IDENT => "IDENT"
  | .INT => "INT"
  | .ASSIGN => "="
  | .PLUS => "+"
  | .MINUS => "-"
  | .BANG => "!"
  | .ASTERISK => "*"
  | .SLASH => "/"
  | .LT => "<"
  | .GT => ">"
  | .EQ => "=="
  | .NOT_EQ => "!="
  | .COMMA => ","
  | .SEMICOLON => ";"
  | .LPAREN => "("
  | .RPAREN => ")"
  | .LBRACE => "\x7b"
  | .RBRACE => "\x7d"
  | .FUNCTION => "FUNCTION"
  | .LET => "LET"
  | .TRUE => "TRUE"
  | .FALSE => "FALSE"
  | .IF => "IF"
  | .ELSE => "ELSE"
  | .RETURN => "RETURN"

/-- Go's `token.Token`: a kind paired with the literal text that produced it. -/
structure Token where
  type : TokenType
  literal : String
  deriving DecidableEq, Repr

/-- Modelled from the spec: `token.LookupIdent` (missing `token` package),
keyword table from §4.1: `fn, let, true, false, if, else, return`. -/
def lookupIdent (s : String) : TokenType :=
  if s = "fn" then .FUNCTION
  else if s = "let" then .LET
  else if s = "true" then .TRUE
  else if s = "false" then .FALSE
  else if s = "if" then .IF
  else if s = "else" then .ELSE
  else if s = "return" then .RETURN
  else .IDENT

/-- Go's `lexer.Lexer`.  The Go struct also stores `readPosition` and `char`, but
after `New` every reachable state satisfies `readPosition = position + 1` and
`char = input[position]` (or `0` past the end): `readChar` sets
`char := input[readPosition]; position := readPosition; readPosition += 1`,
and `New` primes with one `readChar` from the zero state.  We therefore store
`input` and `position` and derive the other two fields. -/
structure Lexer where
  input : List Char
  position : Nat
  deriving DecidableEq, Repr

namespace Lexer

/-- Go's `Lexer.New`: store the input and prime with one `readChar` (which leaves
`position = 0`, `readPosition = 1`). -/
def new (input : List Char) : Lexer := ⟨input, 0⟩

/-- The Go field `lexer.char`: the byte at `position`, `0` past the end. -/
def chr (l : Lexer) : Char := l.input.getD l.position '\x00'

/-- Go's `peekChar`: the byte at `readPosition = position + 1`, `0` past the end. -/
def peekChar (l : Lexer) : Char := l.input.getD (l.position + 1) '\x00'

/-- Go's `readChar`: advance one byte (`position := readPosition`). -/
def readChar (l : Lexer) : Lexer := ⟨l.input, l.position + 1⟩

/-- Past the end of the input the current byte reads as `0`. -/
theorem chr_eq_nul_of_le {l : Lexer} (h : l.input.length ≤ l.position) :
    l.chr = '\x00' := by
  simp [Lexer.chr, List.getD, List.getElem?_eq_none h]

/-- Go's `isLetter` from the lexer source. -/
def isLetter (c : Char) : Bool :=
  ('a' ≤ c && c ≤ 'z') || ('A' ≤ c && c ≤ 'Z') || c = '_'

/-- Go's `isDigit` from the lexer source. -/
def isDigit (c : Char) : Bool :=
  '0' ≤ c && c ≤ '9'

/-- Number of leading whitespace bytes of a suffix.  The `skipWhitespace`
loop advances once per such byte (`chr` walks this suffix, and reads `0`,
which is not whitespace, once the suffix is exhausted). -/
def skipWsLen : List Char → Nat
  | [] => 0
  | c :: cs => if c = ' ' || c = '\t' || c = '\n' || c = '\r' then skipWsLen cs + 1 else 0

/-- Go's `skipWhitespace`: advance while the current byte is ` `, `\t`, `\n`, `\r`;
on the collapsed state this adds the number of leading whitespace bytes of
the remaining input to the position. -/
def skipWhitespace (l : Lexer) : Lexer :=
  ⟨l.input, l.position + skipWsLen (l.input.drop l.position)⟩

/-- Maximal leading run of letters of a suffix (the characters the
`readIdentifier` loop consumes). -/
def letterRun : List Char → List Char
  | [] => []
  | c :: cs => if isLetter c then c :: letterRun cs else []

/-- Go's `readIdentifier`: the maximal run of letters from the current position
(`input[position:position']` in Go), together with the lexer state one past
the run. -/
def readIdentifier (l : Lexer) : List Char × Lexer :=
  (letterRun (l.input.drop l.position),
   ⟨l.input, l.position + (letterRun (l.input.drop l.position)).length⟩)

/-- Maximal leading run of digits of a suffix (the characters the
`readNumber` loop consumes). -/
def digitRun : List Char → List Char
  | [] => []
  | c :: cs => if isDigit c then c :: digitRun cs else []

/-- Go's `readNumber`: the maximal run of digits from the current position,
together with the lexer state one past the run. -/
def readNumber (l : Lexer) : List Char × Lexer :=
  (digitRun (l.input.drop l.position),
   ⟨l.input, l.position + (digitRun (l.input.drop l.position)).length⟩)

/-- Go's `newToken`: a token whose literal is the single character. -/
def newToken (t : TokenType) (c : Char) : Token := ⟨t, String.mk [c]⟩

/-- The dispatch `switch` of `NextToken` (rendered as the equivalent
if-chain), run after whitespace has been skipped. -/
def nextTokenAux (l : Lexer) : Token × Lexer :=
  if l.chr = '=' then
    if l.peekChar = '=' then (⟨.EQ, "=="⟩, l.readChar.readChar)
    else (newToken .ASSIGN l.chr, l.readChar)
  else if l.chr = '+' then (newToken .PLUS l.chr, l.readChar)
  else if l.chr = '-' then (newToken .MINUS l.chr, l.readChar)
  else if l.chr = '!' then
    if l.peekChar = '=' then (⟨.NOT_EQ, "!="⟩, l.readChar.readChar)
    else (newToken .BANG l.chr, l.readChar)
  else if l.chr = '/' then (newToken .SLASH l.chr, l.readChar)
  else if l.chr = '*' then (newToken .ASTERISK l.chr, l.readChar)
  else if l.chr = '<' then (newToken .LT l.chr, l.readChar)
  else if l.chr = '>' then (newToken .GT l.chr, l.readChar)
  else if l.chr = ';' then (newToken .SEMICOLON l.chr, l.readChar)
  else if l.chr = ',' then (newToken .COMMA l.chr, l.readChar)
  else if l.chr = '(' then (newToken .LPAREN l.chr, l.readChar)
  else if l.chr = ')' then (newToken .RPAREN l.chr, l.readChar)
  else if l.chr = '\x7b' then (newToken .LBRACE l.chr, l.readChar)
  else if l.chr = '\x7d' then (newToken .RBRACE l.chr, l.readChar)
  else if l.chr = '\x00' then (⟨.EOF, ""⟩, l.readChar)
  else if isLetter l.chr then
    let r := readIdentifier l
    (⟨lookupIdent (String.mk r.1), String.mk r.1⟩, r.2)
  else if isDigit l.chr then
    let r := readNumber l
    (⟨.INT, String.mk r.1⟩, r.2)
  else (newToken .ILLEGAL l.chr, l.readChar)

/-- Go's `NextToken`: skip whitespace, then dispatch on the current byte,
returning the token and the advanced lexer. -/
def nextToken (l0 : Lexer) : Token × Lexer :=
  nextTokenAux (skipWhitespace l0)

end Lexer

/-- Go's `ast.Identifier`. -/
structure Identifier where
  token : Token
  value : String
  deriving DecidableEq, Repr

mutual
/-- The `ast.Expression` interface: one constructor per concrete node type.
Go interface/pointer slots that the parser can leave `nil` are `Option`s. -/
inductive Expression where
  | Identifier (id : Identifier)
  | IntegerLiteral (token : Token) (value : Int)
  | Boolean (token : Token) (value : Bool)
  | PrefixExpression (token : Token) (operator : String) (right : Option Expression)
  | InfixExpression (token : Token) (left : Option Expression) (operator : String)
      (right : Option Expression)
  | IfExpression (token : Token) (condition : Option Expression)
      (consequence : Option BlockStatement) (alternative : Option BlockStatement)
  | FunctionLiteral (token : Token) (parameters : Option (List Identifier))
      (body : Option BlockStatement)
  | CallExpression (token : Token) (function : Option Expression)
      (arguments : Option (List (Option Expression)))

/-- The `ast.Statement` interface: `LetStatement`, `ReturnStatement`,
`ExpressionStatement` (blocks only ever appear inside `IfExpression` /
`FunctionLiteral`, never in a statement list). -/
inductive Statement where
  | LetStatement (token : Token) (name : Option Identifier) (value : Option Expression)
  | ReturnStatement (token : Token) (returnValue : Option Expression)
  | ExpressionStatement (token : Token) (expression : Option Expression)

/-- Go's `ast.BlockStatement`. -/
inductive BlockStatement where
  | mk (token : Token) (statements : List Statement)
end

/-- Go's `ast.Program`. -/
structure Program where
  statements : List Statement

/-- Go's `Identifier.String`: prints its `Value`. -/
def Identifier.string (id : Identifier) : String := id.value

mutual
/-- The `String()` methods of the expression nodes.  Dereferencing a `nil`
slot in Go panics; the panic is modelled by `none`, which propagates. -/
def exprString : Expression → Option String
  | .Identifier id => some id.string
  | .IntegerLiteral tok _ => some tok.literal
  | .Boolean tok _ => some tok.literal
  | .PrefixExpression _ operator right =>
    match right with
    | none => none
    | some r =>
      match exprString r with
      | none => none
      | some rs => some ("(" ++ operator ++ rs ++ ")")
  | .InfixExpression _ left operator right =>
    match left with
    | none => none
    | some lf =>
      match exprString lf with
      | none => none
      | some ls =>
        match right with
        | none => none
        | some r =>
          match exprString r with
          | none => none
          | some rs => some ("(" ++ ls ++ " " ++ operator ++ " " ++ rs ++ ")")
  | .IfExpression _ condition consequence alternative =>
    match condition with
    | none => none
    | some cond =>
      match exprString cond with
      | none => none
      | some cs =>
        match consequence with
        | none => none
        | some consBlock =>
          match blockString consBlock with
          | none => none
          | some conss =>
            match alternative with
            | none => some ("if" ++ cs ++ " " ++ conss)
            | some altBlock =>
              match blockString altBlock with
              | none => none
              | some alts => some ("if" ++ cs ++ " " ++ conss ++ "else " ++ alts)
  | .FunctionLiteral tok parameters body =>
    -- Go ranges over the (possibly nil) parameter slice; nil iterates zero times.
    let params := match parameters with | none => [] | some ps => ps
    match body with
    | none => none
    | some b =>
      match blockString b with
      | some bs =>
        some (tok.literal ++ "(" ++
          String.intercalate ", " (params.map Identifier.string) ++ ")" ++ bs)
      | none => none
  | .CallExpression _ function arguments =>
    match function with
    | none => none
    | some f =>
      match exprString f with
      | none => none
      | some fs =>
        -- Go ranges over the (possibly nil) argument slice; nil iterates zero times.
        match arguments with
        | none => some (fs ++ "(" ++ ")")
        | some args =>
          match argStrings args with
          | none => none
          | some ss => some (fs ++ "(" ++ String.intercalate ", " ss ++ ")")

/-- The `String()` of each call argument in order; a `nil` argument panics. -/
def argStrings : List (Option Expression) → Option (List String)
  | [] => some []
  | none :: _ => none
  | some e :: rest =>
    match exprString e with
    | none => none
    | some s =>
      match argStrings rest with
      | none => none
      | some ss => some (s :: ss)

/-- The `String()` methods of the statement nodes. -/
def stmtString : Statement → Option String
  | .LetStatement tok name value =>
    -- output = TokenLiteral() + " " + Name.String() + " = " [+ Value.String()] + ";"
    match name with
    | none => none
    | some n =>
      match value with
      | none => some (tok.literal ++ " " ++ n.string ++ " = " ++ ";")
      | some v =>
        match exprString v with
        | none => none
        | some vs => some (tok.literal ++ " " ++ n.string ++ " = " ++ vs ++ ";")
  | .ReturnStatement tok returnValue =>
    match returnValue with
    | none => some (tok.literal ++ " " ++ ";")
    | some v =>
      match exprString v with
      | none => none
      | some vs => some (tok.literal ++ " " ++ vs ++ ";")
  | .ExpressionStatement _ expression =>
    match expression with
    | none => some ""
    | some e => exprString e

/-- Go's `BlockStatement.String`: concatenation of the statements' strings. -/
def blockString : BlockStatement → Option String
  | .mk _ statements => stmtsString statements

/-- Concatenation of a statement list's strings (used by blocks and `Program`). -/
def stmtsString : List Statement → Option String
  | [] => some ""
  | st :: rest =>
    match stmtString st with
    | none => none
    | some s =>
      match stmtsString rest with
      | none => none
      | some ss => some (s ++ ss)
end

/-- Go's `Program.String`: concatenation of the statements' strings. -/
def programString (p : Program) : Option String := stmtsString p.statements

/-! ## `strconv.ParseInt(lit, 0, 64)`

The parser converts `INT` literals with Go's `strconv.ParseInt` with base `0`
and bit size 64.  The lexer only ever tags maximal nonempty runs of the
digits `0`–`9` as `INT`, so the model below covers exactly those inputs
(documented Go behaviour): no sign, no `0b`/`0o`/`0x` prefix and no `_` can
occur, so base 0 means: a leading `0` on a longer run selects base 8 for the
remaining digits (failing on `8`/`9`), otherwise base 10; values above
`2^63 - 1` are a range error.  Any error makes `ParseInt` return `err ≠ nil`,
modelled as `none`. -/

/-- Numeric value of a decimal digit character. -/
def digitVal (c : Char) : Nat := c.toNat - 48

/-- Value of a digit run read in base 10. -/
def decVal (s : List Char) : Nat := s.foldl (fun acc c => 10 * acc + digitVal c) 0

/-- Value of a digit run read in base 8. -/
def octVal (s : List Char) : Nat := s.foldl (fun acc c => 8 * acc + digitVal c) 0

/-- The bound `2^63 - 1`, the largest value that fits a 64-bit signed integer. -/
def maxInt64 : Nat := 9223372036854775807

/-- Go's `strconv.ParseInt(s, 0, 64)` restricted to nonempty decimal-digit runs
(see the section comment). -/
def goParseInt (s : List Char) : Option Int :=
  match s with
  | [] => none
  | c :: rest =>
    if c = '0' ∧ rest ≠ [] then
      -- base 0 with a leading `0`: base 8 over the remaining digits
      if rest.all (fun d => d < '8') then
        if octVal rest ≤ maxInt64 then some (octVal rest) else none
      else none
    else
      if decVal s ≤ maxInt64 then some (decVal s) else none

/-! ## The parser (`src/parser/parser.go`, second version)

Operator precedences (`iota` starting at 1 after the blank identifier). -/

def LOWEST : Nat := 1
def EQUALS : Nat := 2
def LESSGREATER : Nat := 3
def SUM : Nat := 4
def PRODUCT : Nat := 5
def PREFIXP : Nat := 6
def CALL : Nat := 7

/-- The `precedences` map; absent kinds have no entry. -/
def precedences : TokenType → Option Nat
  | .EQ => some EQUALS
  | .NOT_EQ => some EQUALS
  | .LT => some LESSGREATER
  | .GT => some LESSGREATER
  | .PLUS => some SUM
  | .MINUS => some SUM
  | .SLASH => some PRODUCT
  | .ASTERISK => some PRODUCT
  | .LPAREN => some CALL
  | _ => none

/-- Go's `parser.Parser`: the lexer, the accumulated errors and the two-token
window.  The prefix/infix dispatch tables are fixed at construction;
they are rendered as the equivalent inline dispatch in `parseExpression`. -/
structure ParserState where
  lexer : Lexer
  errors : List String
  currentToken : Token
  peekToken : Token
  deriving DecidableEq, Repr

namespace ParserState

/-- Go's `Parser.nextToken`: shift the window, pull one token from the lexer. -/
def nextToken (s : ParserState) : ParserState :=
  let r := s.lexer.nextToken
  ⟨r.2, s.errors, s.peekToken, r.1⟩

/-- Go's `currentTokenIs`. -/
def currentTokenIs (t : TokenType) (s : ParserState) : Bool :=
  s.currentToken.type == t

/-- Go's `peekTokenIs`. -/
def peekTokenIs (t : TokenType) (s : ParserState) : Bool :=
  s.peekToken.type == t

/-- Go's `peekError`: append `"expected next token to be <t>, got <peek> instead"`. -/
def peekError (t : TokenType) (s : ParserState) : ParserState :=
  { s with errors := s.errors ++
      ["expected next token to be " ++ t.str ++ ", got " ++
        s.peekToken.type.str ++ " instead"] }

/-- Go's `expectPeek`: advance on a match, record the error otherwise. -/
def expectPeek (t : TokenType) (s : ParserState) : Bool × ParserState :=
  if peekTokenIs t s then (true, s.nextToken) else (false, peekError t s)

/-- Go's `peekPrecedence`: table lookup with default `LOWEST`. -/
def peekPrecedence (s : ParserState) : Nat :=
  (precedences s.peekToken.type).getD LOWEST

/-- Go's `currentPrecedence`: table lookup with default `LOWEST`. -/
def currentPrecedence (s : ParserState) : Nat :=
  (precedences s.currentToken.type).getD LOWEST

/-- Go's `noPrefixParseFnError`: append `"no prefix parse function for <t> found"`. -/
def noPrefixParseFnError (t : TokenType) (s : ParserState) : ParserState :=
  { s with errors := s.errors ++ ["no prefix parse function for " ++ t.str ++ " found"] }

end ParserState

/-- Go's `Parser.New`: empty error list, then two priming `nextToken` calls. -/
def newParser (l : Lexer) : ParserState :=
  let r1 := l.nextToken
  let r2 := r1.2.nextToken
  ⟨r2.2, [], r1.1, r2.1⟩

/-- Go's `parseIdentifier` (prefix handler for `IDENT`). -/
def parseIdentifier (s : ParserState) : Option Expression × ParserState :=
  (some (.Identifier ⟨s.currentToken, s.currentToken.literal⟩), s)

/-- Go's `parseIntegerLiteral` (prefix handler for `INT`): `ParseInt(lit, 0, 64)`;
on failure record `could not parse "<lit>" as integer` and return no node. -/
def parseIntegerLiteral (s : ParserState) : Option Expression × ParserState :=
  match goParseInt s.currentToken.literal.toList with
  | some value => (some (.IntegerLiteral s.currentToken value), s)
  | none =>
    (none, { s with errors := s.errors ++
        ["could not parse \"" ++ s.currentToken.literal ++ "\" as integer"] })

/-- Go's `parseBoolean` (prefix handler for `TRUE`/`FALSE`). -/
def parseBoolean (s : ParserState) : Option Expression × ParserState :=
  (some (.Boolean s.currentToken (s.currentTokenIs .TRUE)), s)

/-- The `for parser.peekTokenIs(token.COMMA)` loop of `parseFunctionParameters`,
then the final `expectPeek(RPAREN)` (a failure returns the nil slice). -/
def parseFunctionParamsLoop (fuel : Nat) (acc : List Identifier) (s : ParserState) :
    Option (Option (List Identifier) × ParserState) :=
  match fuel with
  | 0 => none
  | fuel + 1 =>
    if s.peekTokenIs .COMMA then
      let s1 := s.nextToken.nextToken
      parseFunctionParamsLoop fuel (acc ++ [⟨s1.currentToken, s1.currentToken.literal⟩]) s1
    else
      match s.expectPeek .RPAREN with
      | (false, s2) => some (none, s2)
      | (true, s2) => some (some acc, s2)

/-- Go's `parseFunctionParameters`. -/
def parseFunctionParameters (fuel : Nat) (s : ParserState) :
    Option (Option (List Identifier) × ParserState) :=
  match fuel with
  | 0 => none
  | fuel + 1 =>
    if s.peekTokenIs .RPAREN then some (some [], s.nextToken)
    else
      let s1 := s.nextToken
      parseFunctionParamsLoop fuel [⟨s1.currentToken, s1.currentToken.literal⟩] s1

mutual

/-- Go's `parseExpression`: prefix dispatch (the table `New` registers, rendered
inline), then the Pratt loop.  An unregistered kind records
`noPrefixParseFnError` and returns no expression without looping. -/
def parseExpression (fuel precedence : Nat) (s : ParserState) :
    Option (Option Expression × ParserState) :=
  match fuel with
  | 0 => none
  | fuel + 1 =>
    match s.currentToken.type with
    | .IDENT =>
      let r := parseIdentifier s
      parseExpressionLoop fuel precedence r.1 r.2
    | .INT =>
      let r := parseIntegerLiteral s
      parseExpressionLoop fuel precedence r.1 r.2
    | .BANG =>
      match parsePrefixExpression fuel s with
      | none => none
      | some r => parseExpressionLoop fuel precedence r.1 r.2
    | .MINUS =>
      match parsePrefixExpression fuel s with
      | none => none
      | some r => parseExpressionLoop fuel precedence r.1 r.2
    | .TRUE =>
      let r := parseBoolean s
      parseExpressionLoop fuel precedence r.1 r.2
    | .FALSE =>
      let r := parseBoolean s
      parseExpressionLoop fuel precedence r.1 r.2
    | .LPAREN =>
      match parseGroupedExpression fuel s with
      | none => none
      | some r => parseExpressionLoop fuel precedence r.1 r.2
    | .IF =>
      match parseIfExpression fuel s with
      | none => none
      | some r => parseExpressionLoop fuel precedence r.1 r.2
    | .FUNCTION =>
      match parseFunctionLiteral fuel s with
      | none => none
      | some r => parseExpressionLoop fuel precedence r.1 r.2
    | _ => some (none, s.noPrefixParseFnError s.currentToken.type)

/-- The `for` loop of `parseExpression`: while the peek token is not a
semicolon and binds strictly tighter, advance and run its infix handler
(`parseInfixExpression` for the eight binary operators, `parseCallExpression`
for `LPAREN`); stop if no handler is registered. -/
def parseExpressionLoop (fuel precedence : Nat) (left : Option Expression)
    (s : ParserState) : Option (Option Expression × ParserState) :=
  match fuel with
  | 0 => none
  | fuel + 1 =>
    if !s.peekTokenIs .SEMICOLON && decide (precedence < s.peekPrecedence) then
      match s.peekToken.type with
      | .PLUS | .MINUS | .SLASH | .ASTERISK | .EQ | .NOT_EQ | .LT | .GT =>
        match parseInfixExpression fuel left s.nextToken with
        | none => none
        | some r => parseExpressionLoop fuel precedence r.1 r.2
      | .LPAREN =>
        match parseCallExpression fuel left s.nextToken with
        | none => none
        | some r => parseExpressionLoop fuel precedence r.1 r.2
      | _ => some (left, s)
    else some (left, s)

/-- Go's `parsePrefixExpression`: capture the operator, advance, parse the operand
at `PREFIX` precedence.  The node is returned even when the operand parse
produced no expression. -/
def parsePrefixExpression (fuel : Nat) (s : ParserState) :
    Option (Option Expression × ParserState) :=
  match fuel with
  | 0 => none
  | fuel + 1 =>
    let tok := s.currentToken
    match parseExpression fuel PREFIXP s.nextToken with
    | none => none
    | some r => some (some (.PrefixExpression tok tok.literal r.1), r.2)

/-- Go's `parseInfixExpression`: capture operator and its precedence, advance,
parse the right operand at that precedence. -/
def parseInfixExpression (fuel : Nat) (left : Option Expression)
    (s : ParserState) : Option (Option Expression × ParserState) :=
  match fuel with
  | 0 => none
  | fuel + 1 =>
    let tok := s.currentToken
    let precedence := s.currentPrecedence
    match parseExpression fuel precedence s.nextToken with
    | none => none
    | some r => some (some (.InfixExpression tok left tok.literal r.1), r.2)

/-- Go's `parseGroupedExpression`: advance past `(`, parse at `LOWEST`, expect `)`. -/
def parseGroupedExpression (fuel : Nat) (s : ParserState) :
    Option (Option Expression × ParserState) :=
  match fuel with
  | 0 => none
  | fuel + 1 =>
    match parseExpression fuel LOWEST s.nextToken with
    | none => none
    | some r =>
      match r.2.expectPeek .RPAREN with
      | (false, s2) => some (none, s2)
      | (true, s2) => some (r.1, s2)

/-- Go's `parseIfExpression`. -/
def parseIfExpression (fuel : Nat) (s : ParserState) :
    Option (Option Expression × ParserState) :=
  match fuel with
  | 0 => none
  | fuel + 1 =>
    let tok := s.currentToken
    match s.expectPeek .LPAREN with
    | (false, s1) => some (none, s1)
    | (true, s1) =>
      match parseExpression fuel LOWEST s1.nextToken with
      | none => none
      | some r =>
        match r.2.expectPeek .RPAREN with
        | (false, s2) => some (none, s2)
        | (true, s2) =>
          match s2.expectPeek .LBRACE with
          | (false, s3) => some (none, s3)
          | (true, s3) =>
            match parseBlockStatement fuel s3 with
            | none => none
            | some rc =>
              if rc.2.peekTokenIs .ELSE then
                let s4 := rc.2.nextToken
                match s4.expectPeek .LBRACE with
                | (false, s5) => some (none, s5)
                | (true, s5) =>
                  match parseBlockStatement fuel s5 with
                  | none => none
                  | some ra =>
                    some (some (.IfExpression tok r.1 (some rc.1) (some ra.1)), ra.2)
              else some (some (.IfExpression tok r.1 (some rc.1) none), rc.2)

/-- Go's `parseFunctionLiteral`.  The parameter slice is stored (even when nil)
before the body is parsed. -/
def parseFunctionLiteral (fuel : Nat) (s : ParserState) :
    Option (Option Expression × ParserState) :=
  match fuel with
  | 0 => none
  | fuel + 1 =>
    let tok := s.currentToken
    match s.expectPeek .LPAREN with
    | (false, s1) => some (none, s1)
    | (true, s1) =>
      match parseFunctionParameters fuel s1 with
      | none => none
      | some rp =>
        match rp.2.expectPeek .LBRACE with
        | (false, s2) => some (none, s2)
        | (true, s2) =>
          match parseBlockStatement fuel s2 with
          | none => none
          | some rb => some (some (.FunctionLiteral tok rp.1 (some rb.1)), rb.2)

/-- Go's `parseCallExpression` (infix handler for `LPAREN`). -/
def parseCallExpression (fuel : Nat) (function : Option Expression)
    (s : ParserState) : Option (Option Expression × ParserState) :=
  match fuel with
  | 0 => none
  | fuel + 1 =>
    let tok := s.currentToken
    match parseCallArguments fuel s with
    | none => none
    | some r => some (some (.CallExpression tok function r.1), r.2)

/-- Go's `parseCallArguments`. -/
def parseCallArguments (fuel : Nat) (s : ParserState) :
    Option (Option (List (Option Expression)) × ParserState) :=
  match fuel with
  | 0 => none
  | fuel + 1 =>
    if s.peekTokenIs .RPAREN then some (some [], s.nextToken)
    else
      match parseExpression fuel LOWEST s.nextToken with
      | none => none
      | some r => parseCallArgsLoop fuel [r.1] r.2

/-- The `for peekTokenIs(COMMA)` loop of `parseCallArguments`, then the final
`expectPeek(RPAREN)` (a failure returns the nil slice). -/
def parseCallArgsLoop (fuel : Nat) (acc : List (Option Expression))
    (s : ParserState) : Option (Option (List (Option Expression)) × ParserState) :=
  match fuel with
  | 0 => none
  | fuel + 1 =>
    if s.peekTokenIs .COMMA then
      match parseExpression fuel LOWEST s.nextToken.nextToken with
      | none => none
      | some r => parseCallArgsLoop fuel (acc ++ [r.1]) r.2
    else
      match s.expectPeek .RPAREN with
      | (false, s2) => some (none, s2)
      | (true, s2) => some (some acc, s2)

/-- Go's `parseStatement`: dispatch on the current token kind. -/
def parseStatement (fuel : Nat) (s : ParserState) :
    Option (Option Statement × ParserState) :=
  match fuel with
  | 0 => none
  | fuel + 1 =>
    match s.currentToken.type with
    | .LET => parseLetStatement fuel s
    | .RETURN => parseReturnStatement fuel s
    | _ => parseExpressionStatement fuel s

/-- Go's `parseLetStatement`. -/
def parseLetStatement (fuel : Nat) (s : ParserState) :
    Option (Option Statement × ParserState) :=
  match fuel with
  | 0 => none
  | fuel + 1 =>
    let tok := s.currentToken
    match s.expectPeek .IDENT with
    | (false, s1) => some (none, s1)
    | (true, s1) =>
      let name : Identifier := ⟨s1.currentToken, s1.currentToken.literal⟩
      match s1.expectPeek .ASSIGN with
      | (false, s2) => some (none, s2)
      | (true, s2) =>
        match parseExpression fuel LOWEST s2.nextToken with
        | none => none
        | some r =>
          let s3 := if r.2.peekTokenIs .SEMICOLON then r.2.nextToken else r.2
          some (some (.LetStatement tok (some name) r.1), s3)

/-- Go's `parseReturnStatement`. -/
def parseReturnStatement (fuel : Nat) (s : ParserState) :
    Option (Option Statement × ParserState) :=
  match fuel with
  | 0 => none
  | fuel + 1 =>
    let tok := s.currentToken
    match parseExpression fuel LOWEST s.nextToken with
    | none => none
    | some r =>
      let s1 := if r.2.peekTokenIs .SEMICOLON then r.2.nextToken else r.2
      some (some (.ReturnStatement tok r.1), s1)

/-- Go's `parseExpressionStatement`: the statement itself never fails, even when
the expression parse produced no expression. -/
def parseExpressionStatement (fuel : Nat) (s : ParserState) :
    Option (Option Statement × ParserState) :=
  match fuel with
  | 0 => none
  | fuel + 1 =>
    let tok := s.currentToken
    match parseExpression fuel LOWEST s with
    | none => none
    | some r =>
      let s1 := if r.2.peekTokenIs .SEMICOLON then r.2.nextToken else r.2
      some (some (.ExpressionStatement tok r.1), s1)

/-- Go's `parseBlockStatement`: record the `{` token, advance once, loop. -/
def parseBlockStatement (fuel : Nat) (s : ParserState) :
    Option (BlockStatement × ParserState) :=
  match fuel with
  | 0 => none
  | fuel + 1 => parseBlockLoop fuel s.currentToken [] s.nextToken

/-- The `for !currentTokenIs(RBRACE)` loop of `parseBlockStatement`: note the
source checks only `RBRACE`, not `EOF`. -/
def parseBlockLoop (fuel : Nat) (tok : Token) (acc : List Statement)
    (s : ParserState) : Option (BlockStatement × ParserState) :=
  match fuel with
  | 0 => none
  | fuel + 1 =>
    if s.currentTokenIs .RBRACE then some (.mk tok acc, s)
    else
      match parseStatement fuel s with
      | none => none
      | some r =>
        let acc' := match r.1 with | some st => acc ++ [st] | none => acc
        parseBlockLoop fuel tok acc' r.2.nextToken

/-- The `for currentToken.Type != EOF` loop of `ParseProgram`. -/
def parseProgramLoop (fuel : Nat) (acc : List Statement) (s : ParserState) :
    Option (Program × ParserState) :=
  match fuel with
  | 0 => none
  | fuel + 1 =>
    if s.currentTokenIs .EOF then some (⟨acc⟩, s)
    else
      match parseStatement fuel s with
      | none => none
      | some r =>
        let acc' := match r.1 with | some st => acc ++ [st] | none => acc
        parseProgramLoop fuel acc' r.2.nextToken

end

/-- Go's `ParseProgram`. -/
def parseProgram (fuel : Nat) (s : ParserState) : Option (Program × ParserState) :=
  parseProgramLoop fuel [] s

/-- Lex and parse an input string: `Parser.New(lexer.New(input)).ParseProgram()`. -/
def parseInput (fuel : Nat) (input : String) : Option (Program × ParserState) :=
  parseProgram fuel (newParser (Lexer.new input.toList))

/-- The printed form of a parse: `ParseProgram().String()`. -/
def printOf (fuel : Nat) (input : String) : Option String :=
  match parseInput fuel input with
  | none => none
  | some r => programString r.1

/-! ## Lexer lemmas -/

namespace Lexer

/-- The current byte is the head of the remaining input. -/
theorem chr_of_drop {l : Lexer} {c : Char} {cs : List Char}
    (h : l.input.drop l.position = c :: cs) : l.chr = c := by
  have h1 : (l.input.drop l.position).head? = some c := by rw [h]; rfl
  rw [List.head?_drop] at h1
  simp [Lexer.chr, List.getD, h1]

/-- When the remaining input is empty, the position is past the end. -/
theorem len_le_of_drop_nil {l : Lexer} (h : l.input.drop l.position = []) :
    l.input.length ≤ l.position := by
  simpa using List.drop_eq_nil_iff.mp h

theorem skipWhitespace_input (l : Lexer) : (skipWhitespace l).input = l.input := rfl

theorem skipWhitespace_pos (l : Lexer) : l.position ≤ (skipWhitespace l).position :=
  Nat.le_add_right _ _

theorem skipWhitespace_eq_self {l : Lexer}
    (h : ¬(l.chr = ' ' || l.chr = '\t' || l.chr = '\n' || l.chr = '\r')) :
    skipWhitespace l = l := by
  rw [skipWhitespace]
  rcases hd : l.input.drop l.position with _ | ⟨c, cs⟩
  · rfl
  · rw [chr_of_drop hd] at h
    have h0 : skipWsLen (c :: cs) = 0 := by rw [skipWsLen, if_neg h]
    rw [h0]
    rfl

theorem readIdentifier_input (l : Lexer) : (readIdentifier l).2.input = l.input := rfl

theorem readIdentifier_pos (l : Lexer) : l.position ≤ (readIdentifier l).2.position :=
  Nat.le_add_right _ _

theorem readIdentifier_pos_lt {l : Lexer} (h : isLetter l.chr) :
    l.position < (readIdentifier l).2.position := by
  show l.position < l.position + (letterRun (l.input.drop l.position)).length
  rcases hd : l.input.drop l.position with _ | ⟨c, cs⟩
  · rw [chr_eq_nul_of_le (len_le_of_drop_nil hd)] at h
    exact absurd h (by decide)
  · rw [chr_of_drop hd] at h
    simp [letterRun, h]

theorem readNumber_input (l : Lexer) : (readNumber l).2.input = l.input := rfl

theorem readNumber_pos (l : Lexer) : l.position ≤ (readNumber l).2.position :=
  Nat.le_add_right _ _

theorem readNumber_pos_lt {l : Lexer} (h : isDigit l.chr) :
    l.position < (readNumber l).2.position := by
  show l.position < l.position + (digitRun (l.input.drop l.position)).length
  rcases hd : l.input.drop l.position with _ | ⟨c, cs⟩
  · rw [chr_eq_nul_of_le (len_le_of_drop_nil hd)] at h
    exact absurd h (by decide)
  · rw [chr_of_drop hd] at h
    simp [digitRun, h]

/-- Go's `LookupIdent` never yields `EOF` (it is a keyword kind or `IDENT`). -/
theorem lookupIdent_ne_eof (s : String) : lookupIdent s ≠ TokenType.EOF := by
  unfold lookupIdent
  split_ifs <;> simp

/-- Past the end of the input the dispatch returns the `EOF` token and
advances one position. -/
theorem nextTokenAux_atEnd (l : Lexer) (h : l.input.length ≤ l.position) :
    nextTokenAux l = (⟨.EOF, ""⟩, l.readChar) := by
  have hchr : l.chr = '\x00' := chr_eq_nul_of_le h
  rw [nextTokenAux]
  simp +decide [hchr]

/-- Past the end of the input, `NextToken` returns `EOF` (empty literal) and
moves the position one further. -/
theorem nextToken_atEnd (l : Lexer) (h : l.input.length ≤ l.position) :
    Lexer.nextToken l = (⟨.EOF, ""⟩, ⟨l.input, l.position + 1⟩) := by
  have hchr : l.chr = '\x00' := chr_eq_nul_of_le h
  have hsw : skipWhitespace l = l := skipWhitespace_eq_self (by simp +decide [hchr])
  rw [Lexer.nextToken, hsw, nextTokenAux_atEnd l h, Lexer.readChar]

/-- The dispatch preserves the input string. -/
theorem nextTokenAux_input (l : Lexer) : (nextTokenAux l).2.input = l.input := by
  unfold nextTokenAux
  simp only [apply_ite (fun p : Token × Lexer => p.2.input)]
  simp [Lexer.readChar, readIdentifier_input, readNumber_input]

/-- Go's `NextToken` preserves the input string. -/
theorem nextToken_input (l : Lexer) : (Lexer.nextToken l).2.input = l.input := by
  rw [Lexer.nextToken, nextTokenAux_input, skipWhitespace_input]

/-- Case-wise reasoning under an `if` without unfolding its branches. -/
theorem ite_imp {α : Sort u} (P : α → Prop) (c : Prop) [Decidable c] (a b : α)
    (ha : c → P a) (hb : ¬c → P b) : P (ite c a b) := by
  by_cases h : c
  · simpa [h] using ha h
  · simpa [h] using hb h

/-- The dispatch strictly advances the position. -/
theorem nextTokenAux_pos (l : Lexer) : l.position < (nextTokenAux l).2.position := by
  unfold nextTokenAux
  simp only [apply_ite (fun p : Token × Lexer => p.2.position), Lexer.readChar]
  repeat' first
    | omega
    | exact readIdentifier_pos_lt ‹_›
    | exact readNumber_pos_lt ‹_›
    | refine ite_imp (fun x => l.position < x) _ _ _ (fun hcond => ?_) (fun hcond => ?_)

/-- Every `NextToken` call strictly advances the position. -/
theorem nextToken_pos (l : Lexer) : l.position < (Lexer.nextToken l).2.position := by
  rw [Lexer.nextToken]
  have h1 := skipWhitespace_pos l
  have h2 := nextTokenAux_pos (skipWhitespace l)
  omega

/-- Iterated scanning: the lexer state after `n` calls to `NextToken`. -/
def lexSteps : Nat → Lexer → Lexer
  | 0, l => l
  | n + 1, l => lexSteps n (Lexer.nextToken l).2

theorem lexSteps_input (n : Nat) (l : Lexer) : (lexSteps n l).input = l.input := by
  induction n generalizing l with
  | zero => rfl
  | succ n ih => rw [lexSteps, ih, nextToken_input]

theorem lexSteps_pos (n : Nat) (l : Lexer) :
    l.position + n ≤ (lexSteps n l).position := by
  induction n generalizing l with
  | zero => simp [lexSteps]
  | succ n ih =>
    rw [lexSteps]
    have h1 := nextToken_pos l
    have h2 := ih (Lexer.nextToken l).2
    omega

theorem lexSteps_add (a b : Nat) (l : Lexer) :
    lexSteps (a + b) l = lexSteps b (lexSteps a l) := by
  induction a generalizing l with
  | zero => simp [lexSteps]
  | succ a ih => rw [Nat.succ_add, lexSteps, lexSteps, ih]

/-- Past the end, the whole iterated scan stays past the end. -/
theorem lexSteps_atEnd (n : Nat) (l : Lexer) (h : l.input.length ≤ l.position) :
    (lexSteps n l).input.length ≤ (lexSteps n l).position := by
  induction n generalizing l with
  | zero => exact h
  | succ n ih =>
    rw [lexSteps, nextToken_atEnd l h]
    exact ih _ (by simpa using Nat.le_succ_of_le h)

/-- If the dispatch answers `EOF`, the current byte read as `0`. -/
theorem nextTokenAux_eof_chr (l : Lexer) (h : (nextTokenAux l).1.type = .EOF) :
    l.chr = '\x00' := by
  unfold nextTokenAux at h
  simp only [apply_ite (fun p : Token × Lexer => p.1.type), newToken] at h
  revert h
  repeat' first
    | exact fun hh => absurd hh (by decide)
    | exact fun hh => absurd hh (lookupIdent_ne_eof _)
    | exact fun hh => ‹l.chr = '\x00'›
    | refine ite_imp (fun x => x = TokenType.EOF → l.chr = '\x00') _ _ _
        (fun hcond => ?_) (fun hcond => ?_)

/-- If the input contains no `NUL` byte, an `EOF` answer can only come from
the end of the input, so the resulting state is past the end. -/
theorem nextToken_eof_atEnd (l : Lexer) (hnonul : ∀ c ∈ l.input, c ≠ '\x00')
    (h : (Lexer.nextToken l).1.type = .EOF) :
    (Lexer.nextToken l).2.input.length ≤ (Lexer.nextToken l).2.position := by
  rw [Lexer.nextToken] at h ⊢
  have hchr : (skipWhitespace l).chr = '\x00' := nextTokenAux_eof_chr _ h
  have hend : (skipWhitespace l).input.length ≤ (skipWhitespace l).position := by
    by_contra hlt
    push_neg at hlt
    have hmem : (skipWhitespace l).chr ∈ (skipWhitespace l).input := by
      rw [Lexer.chr, List.getD_eq_getElem _ _ hlt]
      exact List.getElem_mem hlt
    rw [skipWhitespace_input] at hmem
    exact hnonul _ hmem hchr
  rw [nextTokenAux_atEnd _ hend]
  have := skipWhitespace_input l
  simp only [Lexer.readChar]
  omega

theorem lexSteps_succ_right (k : Nat) (l : Lexer) :
    lexSteps (k + 1) l = (Lexer.nextToken (lexSteps k l)).2 := by
  rw [lexSteps_add k 1 l]; rfl

end Lexer

/-! ## Parser lemmas: behaviour once the token window is stuck at `EOF` -/

namespace ParserState

/-- When the lexer is past the end, the parser's `nextToken` shifts in another
`EOF` token and stays past the end. -/
theorem nextToken_stuck (s : ParserState) (h : s.lexer.input.length ≤ s.lexer.position) :
    s.nextToken = ⟨⟨s.lexer.input, s.lexer.position + 1⟩, s.errors, s.peekToken, ⟨.EOF, ""⟩⟩ := by
  rw [ParserState.nextToken, Lexer.nextToken_atEnd s.lexer h]

end ParserState

/-- With both window tokens `EOF` and the lexer past the end, `parseStatement`
either runs out of fuel or yields an empty expression statement, recording
`no prefix parse function for EOF found` and leaving window and lexer alone. -/
theorem parseStatement_stuck (n : Nat) (s : ParserState)
    (h1 : s.currentToken.type = .EOF) (h2 : s.peekToken.type = .EOF) :
    parseStatement n s = none ∨
    parseStatement n s =
      some (some (.ExpressionStatement s.currentToken none), s.noPrefixParseFnError .EOF) := by
  match n with
  | 0 => exact Or.inl rfl
  | 1 => exact Or.inl (by rw [parseStatement]; rw [h1]; rfl)
  | 2 =>
    refine Or.inl ?_
    rw [parseStatement]; rw [h1]
    show parseExpressionStatement 1 s = none
    rw [parseExpressionStatement]
    rfl
  | (k + 3) =>
    refine Or.inr ?_
    have hexp : parseExpression (k + 1) LOWEST s =
        some (none, s.noPrefixParseFnError .EOF) := by
      rw [parseExpression, h1]
    rw [parseStatement, h1]
    show parseExpressionStatement (k + 2) s = _
    rw [parseExpressionStatement, hexp]
    have hpeek : (s.noPrefixParseFnError .EOF).peekTokenIs .SEMICOLON = false := by
      simp [ParserState.peekTokenIs, ParserState.noPrefixParseFnError, h2]
    simp only [hpeek, Bool.false_eq_true, if_false]

/-- With both window tokens `EOF` and the lexer past the end, the block-statement
loop never terminates: it exhausts any fuel.  (The Go loop tests only for
`RBRACE`, which never arrives at end of input.) -/
theorem parseBlockLoop_stuck (n : Nat) (tok : Token) (acc : List Statement)
    (s : ParserState) (h1 : s.currentToken.type = .EOF) (h2 : s.peekToken.type = .EOF)
    (h3 : s.lexer.input.length ≤ s.lexer.position) :
    parseBlockLoop n tok acc s = none := by
  induction n generalizing acc s with
  | zero => rfl
  | succ n ih =>
    rw [parseBlockLoop]
    have hcur : s.currentTokenIs .RBRACE = false := by
      simp [ParserState.currentTokenIs, h1]
    rcases parseStatement_stuck n s h1 h2 with hst | hst
    · simp [hcur, hst]
    · have hnext : (s.noPrefixParseFnError .EOF).nextToken =
          ⟨⟨s.lexer.input, s.lexer.position + 1⟩, (s.noPrefixParseFnError .EOF).errors,
            s.peekToken, ⟨.EOF, ""⟩⟩ :=
        ParserState.nextToken_stuck _ h3
      simp only [hcur, Bool.false_eq_true, if_false, hst, hnext]
      exact ih _ _ h2 rfl (by simpa using Nat.le_succ_of_le h3)

/-! ## Claim theorems -/

/-- C1: the claim says `ParseProgram` terminates on every input because
`parseBlockStatement` stops at `RBRACE` **or `EOF`** — but the code's loop
(`parser.go` line 557) tests only `RBRACE`.  On the input `fn(){` (a block
unterminated at end of input) the block loop spins on `EOF` forever: the
fueled embedding returns `none` (fuel exhausted) at **every** fuel. -/
theorem parseProgram_unterminated_block_diverges (fuel : Nat) :
    parseProgram fuel (newParser (Lexer.new ("fn()\x7b".toList))) = none := by
  rcases Nat.lt_or_ge fuel 6 with hlt | hge
  · interval_cases fuel <;> rfl
  · obtain ⟨j, rfl⟩ : ∃ j, fuel = j + 6 := ⟨fuel - 6, by omega⟩
    have hb : parseBlockLoop j ⟨.LBRACE, "\x7b"⟩ []
        ⟨⟨"fn()\x7b".toList, 7⟩, [], ⟨.EOF, ""⟩, ⟨.EOF, ""⟩⟩ = none :=
      parseBlockLoop_stuck j _ _ _ rfl rfl (by decide)
    have hfl : parseFunctionLiteral (j + 2)
        ⟨⟨"fn()\x7b".toList, 3⟩, [], ⟨.FUNCTION, "fn"⟩, ⟨.LPAREN, "("⟩⟩ = none := by
      rw [show parseFunctionLiteral (j + 2)
            ⟨⟨"fn()\x7b".toList, 3⟩, [], ⟨.FUNCTION, "fn"⟩, ⟨.LPAREN, "("⟩⟩ =
          (match parseBlockLoop j ⟨.LBRACE, "\x7b"⟩ []
              ⟨⟨"fn()\x7b".toList, 7⟩, [], ⟨.EOF, ""⟩, ⟨.EOF, ""⟩⟩ with
            | none => none
            | some rb => some (some (.FunctionLiteral ⟨.FUNCTION, "fn"⟩ (some [])
                (some rb.1)), rb.2)) from rfl, hb]
    have hexp : parseExpression (j + 3) LOWEST
        ⟨⟨"fn()\x7b".toList, 3⟩, [], ⟨.FUNCTION, "fn"⟩, ⟨.LPAREN, "("⟩⟩ = none := by
      rw [show parseExpression (j + 3) LOWEST
            ⟨⟨"fn()\x7b".toList, 3⟩, [], ⟨.FUNCTION, "fn"⟩, ⟨.LPAREN, "("⟩⟩ =
          (match parseFunctionLiteral (j + 2)
              ⟨⟨"fn()\x7b".toList, 3⟩, [], ⟨.FUNCTION, "fn"⟩, ⟨.LPAREN, "("⟩⟩ with
            | none => none
            | some r => parseExpressionLoop (j + 2) LOWEST r.1 r.2) from rfl, hfl]
    have hes : parseExpressionStatement (j + 4)
        ⟨⟨"fn()\x7b".toList, 3⟩, [], ⟨.FUNCTION, "fn"⟩, ⟨.LPAREN, "("⟩⟩ = none := by
      rw [show parseExpressionStatement (j + 4)
            ⟨⟨"fn()\x7b".toList, 3⟩, [], ⟨.FUNCTION, "fn"⟩, ⟨.LPAREN, "("⟩⟩ =
          (match parseExpression (j + 3) LOWEST
              ⟨⟨"fn()\x7b".toList, 3⟩, [], ⟨.FUNCTION, "fn"⟩, ⟨.LPAREN, "("⟩⟩ with
            | none => none
            | some r =>
              some (some (.ExpressionStatement ⟨.FUNCTION, "fn"⟩ r.1),
                if r.2.peekTokenIs .SEMICOLON then r.2.nextToken else r.2)) from rfl, hexp]
    have hst : parseStatement (j + 5)
        ⟨⟨"fn()\x7b".toList, 3⟩, [], ⟨.FUNCTION, "fn"⟩, ⟨.LPAREN, "("⟩⟩ = none := by
      rw [show parseStatement (j + 5)
            ⟨⟨"fn()\x7b".toList, 3⟩, [], ⟨.FUNCTION, "fn"⟩, ⟨.LPAREN, "("⟩⟩ =
          parseExpressionStatement (j + 4)
            ⟨⟨"fn()\x7b".toList, 3⟩, [], ⟨.FUNCTION, "fn"⟩, ⟨.LPAREN, "("⟩⟩ from rfl, hes]
    rw [show parseProgram (j + 6) (newParser (Lexer.new ("fn()\x7b".toList))) =
        (match parseStatement (j + 5)
            ⟨⟨"fn()\x7b".toList, 3⟩, [], ⟨.FUNCTION, "fn"⟩, ⟨.LPAREN, "("⟩⟩ with
          | none => none
          | some r =>
            parseProgramLoop (j + 5)
              (match r.1 with | some st => [] ++ [st] | none => []) r.2.nextToken)
        from rfl, hst]

/-- C4 (amended): iterating `NextToken` from any input reaches the `EOF`
token (empty literal) after at most `input.length + 1` calls; and on inputs
free of `NUL` bytes, once some call returns `EOF` every later call returns
`EOF` as well.  (The restriction to `NUL`-free inputs is forced: an interior
`0` byte makes `NextToken` emit an early `EOF` and then keep scanning.) -/
theorem nextToken_reaches_eof_and_persists :
    (∀ input : List Char,
      (Lexer.nextToken (Lexer.lexSteps input.length (Lexer.new input))).1 = ⟨.EOF, ""⟩) ∧
    (∀ input : List Char, (∀ c ∈ input, c ≠ '\x00') → ∀ n m : Nat, n ≤ m →
      (Lexer.nextToken (Lexer.lexSteps n (Lexer.new input))).1.type = .EOF →
      (Lexer.nextToken (Lexer.lexSteps m (Lexer.new input))).1.type = .EOF) := by
  constructor
  · intro input
    have hpos := Lexer.lexSteps_pos input.length (Lexer.new input)
    have hinp := Lexer.lexSteps_input input.length (Lexer.new input)
    have hend : (Lexer.lexSteps input.length (Lexer.new input)).input.length ≤
        (Lexer.lexSteps input.length (Lexer.new input)).position := by
      rw [hinp]
      simpa [Lexer.new] using hpos
    rw [Lexer.nextToken_atEnd _ hend]
  · intro input hnonul n m hnm heof
    have hnonul' : ∀ c ∈ (Lexer.lexSteps n (Lexer.new input)).input, c ≠ '\x00' := by
      rw [Lexer.lexSteps_input]; exact hnonul
    have hend1 : (Lexer.lexSteps (n + 1) (Lexer.new input)).input.length ≤
        (Lexer.lexSteps (n + 1) (Lexer.new input)).position := by
      rw [Lexer.lexSteps_succ_right]
      exact Lexer.nextToken_eof_atEnd _ hnonul' heof
    rcases Nat.eq_or_lt_of_le hnm with rfl | hlt
    · exact heof
    · obtain ⟨k, rfl⟩ : ∃ k, m = (n + 1) + k := ⟨m - (n + 1), by omega⟩
      rw [Lexer.lexSteps_add]
      have hend2 := Lexer.lexSteps_atEnd k _ hend1
      rw [Lexer.nextToken_atEnd _ hend2]

/-- Witness for C4's theorem at concrete inputs: `ab` reaches `EOF` at call
3, and on the `NUL`-free input `a` the `EOF` at call 2 persists at call 4. -/
theorem nextToken_reaches_eof_and_persists_witness :
    (Lexer.nextToken (Lexer.lexSteps 2 (Lexer.new ('a' :: 'b' :: [])))).1 = ⟨.EOF, ""⟩ ∧
    (Lexer.nextToken (Lexer.lexSteps 3 (Lexer.new ('a' :: [])))).1.type = .EOF :=
  ⟨nextToken_reaches_eof_and_persists.1 ('a' :: 'b' :: []),
   nextToken_reaches_eof_and_persists.2 ('a' :: []) (by decide) 1 3 (by decide) (by decide)⟩

/-- C4 as stated is false: on the input consisting of the bytes `0x00 'a'`,
the very first call returns `EOF` but the second call returns an identifier
token, not `EOF`. -/
theorem nextToken_eof_not_persistent_counterexample :
    (Lexer.nextToken (Lexer.lexSteps 0 (Lexer.new ('\x00' :: 'a' :: [])))).1.type = .EOF ∧
    (Lexer.nextToken (Lexer.lexSteps 1 (Lexer.new ('\x00' :: 'a' :: [])))).1.type ≠ .EOF := by
  constructor
  · rfl
  · decide

/-- C9: dispatch of `=` and `!` with one-character lookahead: `==` ↦ `EQ`
consuming two bytes, `=` ↦ `ASSIGN` consuming one, `!=` ↦ `NOT_EQ` consuming
two, `!` ↦ `BANG` consuming one. -/
theorem nextToken_eq_bang_dispatch (l : Lexer) :
    (l.chr = '=' → l.peekChar = '=' →
      Lexer.nextToken l = (⟨.EQ, "=="⟩, l.readChar.readChar) ∧
      l.readChar.readChar.position = l.position + 2) ∧
    (l.chr = '=' → l.peekChar ≠ '=' →
      Lexer.nextToken l = (⟨.ASSIGN, "="⟩, l.readChar) ∧
      l.readChar.position = l.position + 1) ∧
    (l.chr = '!' → l.peekChar = '=' →
      Lexer.nextToken l = (⟨.NOT_EQ, "!="⟩, l.readChar.readChar) ∧
      l.readChar.readChar.position = l.position + 2) ∧
    (l.chr = '!' → l.peekChar ≠ '=' →
      Lexer.nextToken l = (⟨.BANG, "!"⟩, l.readChar) ∧
      l.readChar.position = l.position + 1) := by
  refine ⟨fun hc hp => ⟨?_, rfl⟩, fun hc hp => ⟨?_, rfl⟩,
          fun hc hp => ⟨?_, rfl⟩, fun hc hp => ⟨?_, rfl⟩⟩ <;>
    rw [Lexer.nextToken, Lexer.skipWhitespace_eq_self (by simp +decide [hc])] <;>
    unfold Lexer.nextTokenAux <;>
    simp +decide [hc, hp, Lexer.newToken]

/-- Witness for C9's theorem on the four concrete two-byte inputs. -/
theorem nextToken_eq_bang_dispatch_witness :
    Lexer.nextToken ⟨'=' :: '=' :: [], 0⟩ = (⟨.EQ, "=="⟩, ⟨'=' :: '=' :: [], 2⟩) ∧
    Lexer.nextToken ⟨'=' :: 'a' :: [], 0⟩ = (⟨.ASSIGN, "="⟩, ⟨'=' :: 'a' :: [], 1⟩) ∧
    Lexer.nextToken ⟨'!' :: '=' :: [], 0⟩ = (⟨.NOT_EQ, "!="⟩, ⟨'!' :: '=' :: [], 2⟩) ∧
    Lexer.nextToken ⟨'!' :: 'a' :: [], 0⟩ = (⟨.BANG, "!"⟩, ⟨'!' :: 'a' :: [], 1⟩) :=
  ⟨((nextToken_eq_bang_dispatch ⟨'=' :: '=' :: [], 0⟩).1 (by decide) (by decide)).1,
   ((nextToken_eq_bang_dispatch ⟨'=' :: 'a' :: [], 0⟩).2.1 (by decide) (by decide)).1,
   ((nextToken_eq_bang_dispatch ⟨'!' :: '=' :: [], 0⟩).2.2.1 (by decide) (by decide)).1,
   ((nextToken_eq_bang_dispatch ⟨'!' :: 'a' :: [], 0⟩).2.2.2 (by decide) (by decide)).1⟩

/-- Dispatch on a byte that matches no case of the `switch`: an `ILLEGAL`
token with that byte as literal, advancing one position. -/
theorem Lexer.nextTokenAux_illegal (l : Lexer)
    (e1 : l.chr ≠ '=') (e2 : l.chr ≠ '+') (e3 : l.chr ≠ '-') (e4 : l.chr ≠ '!')
    (e5 : l.chr ≠ '/') (e6 : l.chr ≠ '*') (e7 : l.chr ≠ '<') (e8 : l.chr ≠ '>')
    (e9 : l.chr ≠ ';') (e10 : l.chr ≠ ',') (e11 : l.chr ≠ '(') (e12 : l.chr ≠ ')')
    (e13 : l.chr ≠ '\x7b') (e14 : l.chr ≠ '\x7d') (e15 : l.chr ≠ '\x00')
    (hl : Lexer.isLetter l.chr = false) (hd : Lexer.isDigit l.chr = false) :
    Lexer.nextTokenAux l = (Lexer.newToken .ILLEGAL l.chr, l.readChar) := by
  unfold Lexer.nextTokenAux
  rw [if_neg e1, if_neg e2, if_neg e3, if_neg e4, if_neg e5, if_neg e6, if_neg e7,
    if_neg e8, if_neg e9, if_neg e10, if_neg e11, if_neg e12, if_neg e13, if_neg e14,
    if_neg e15, if_neg (by simp [hl]), if_neg (by simp [hd])]

/-- C10 (amended): a single-byte input whose byte is **nonzero** and neither
whitespace, recognized punctuation, a letter, an underscore, nor a digit lexes
to an `ILLEGAL` token with that byte as literal, and the parse yields exactly
one `ExpressionStatement` with no expression (printing as the empty string)
and exactly the error `no prefix parse function for ILLEGAL found`. -/
theorem illegal_byte_parse (c : Char)
    (hws : ¬(c = ' ' || c = '\t' || c = '\n' || c = '\r'))
    (e1 : c ≠ '=') (e2 : c ≠ '+') (e3 : c ≠ '-') (e4 : c ≠ '!')
    (e5 : c ≠ '/') (e6 : c ≠ '*') (e7 : c ≠ '<') (e8 : c ≠ '>')
    (e9 : c ≠ ';') (e10 : c ≠ ',') (e11 : c ≠ '(') (e12 : c ≠ ')')
    (e13 : c ≠ '\x7b') (e14 : c ≠ '\x7d') (hnul : c ≠ '\x00')
    (hl : Lexer.isLetter c = false) (hd : Lexer.isDigit c = false) :
    (Lexer.nextToken (Lexer.new [c])).1 = ⟨.ILLEGAL, String.mk [c]⟩ ∧
    parseProgram 8 (newParser (Lexer.new [c])) =
      some (⟨[.ExpressionStatement ⟨.ILLEGAL, String.mk [c]⟩ none]⟩,
        ⟨⟨[c], 3⟩, ["no prefix parse function for ILLEGAL found"],
          ⟨.EOF, ""⟩, ⟨.EOF, ""⟩⟩) ∧
    stmtString (.ExpressionStatement ⟨.ILLEGAL, String.mk [c]⟩ none) = some "" := by
  have hsw : Lexer.skipWhitespace (Lexer.new [c]) = Lexer.new [c] :=
    Lexer.skipWhitespace_eq_self hws
  have htok : Lexer.nextToken (Lexer.new [c]) = (⟨.ILLEGAL, String.mk [c]⟩, ⟨[c], 1⟩) := by
    rw [Lexer.nextToken, hsw]
    exact Lexer.nextTokenAux_illegal _ e1 e2 e3 e4 e5 e6 e7 e8 e9 e10 e11 e12 e13 e14
      hnul hl hd
  have htok2 : Lexer.nextToken ⟨[c], 1⟩ = (⟨.EOF, ""⟩, ⟨[c], 2⟩) :=
    Lexer.nextToken_atEnd _ (Nat.le_refl 1)
  have hnp : newParser (Lexer.new [c]) =
      ⟨⟨[c], 2⟩, [], ⟨.ILLEGAL, String.mk [c]⟩, ⟨.EOF, ""⟩⟩ := by
    simp only [newParser, htok, htok2]
  refine ⟨by rw [htok], ?_, rfl⟩
  rw [hnp]
  have htok3 : Lexer.nextToken ⟨[c], 2⟩ = (⟨.EOF, ""⟩, ⟨[c], 3⟩) :=
    Lexer.nextToken_atEnd _ (by simp)
  show parseProgramLoop 8 [] _ = _
  rw [show parseProgramLoop 8 [] ⟨⟨[c], 2⟩, [], ⟨.ILLEGAL, String.mk [c]⟩, ⟨.EOF, ""⟩⟩ =
      parseProgramLoop 7
        [.ExpressionStatement ⟨.ILLEGAL, String.mk [c]⟩ none]
        (ParserState.nextToken ⟨⟨[c], 2⟩,
          ["no prefix parse function for ILLEGAL found"],
          ⟨.ILLEGAL, String.mk [c]⟩, ⟨.EOF, ""⟩⟩) from rfl]
  rw [show ParserState.nextToken ⟨⟨[c], 2⟩,
        ["no prefix parse function for ILLEGAL found"],
        ⟨.ILLEGAL, String.mk [c]⟩, ⟨.EOF, ""⟩⟩ =
      ⟨⟨[c], 3⟩, ["no prefix parse function for ILLEGAL found"],
        ⟨.EOF, ""⟩, ⟨.EOF, ""⟩⟩ from by rw [ParserState.nextToken, htok3]]
  rfl

/-- Witness for C10's theorem at the byte `@`. -/
theorem illegal_byte_parse_witness :
    (Lexer.nextToken (Lexer.new ['@'])).1 = ⟨.ILLEGAL, String.mk ['@']⟩ ∧
    parseProgram 8 (newParser (Lexer.new ['@'])) =
      some (⟨[.ExpressionStatement ⟨.ILLEGAL, String.mk ['@']⟩ none]⟩,
        ⟨⟨['@'], 3⟩, ["no prefix parse function for ILLEGAL found"],
          ⟨.EOF, ""⟩, ⟨.EOF, ""⟩⟩) ∧
    stmtString (.ExpressionStatement ⟨.ILLEGAL, String.mk ['@']⟩ none) = some "" :=
  illegal_byte_parse '@' (by decide) (by decide) (by decide) (by decide) (by decide)
    (by decide) (by decide) (by decide) (by decide) (by decide) (by decide) (by decide)
    (by decide) (by decide) (by decide) (by decide) (by decide) (by decide)

/-- C10 as stated is false at the zero byte: `0x00` is a single byte that is
not whitespace, punctuation, a letter, an underscore, or a digit, yet the
lexer answers `EOF` (not `ILLEGAL`) and the parse yields an empty program
with no errors rather than one empty expression statement with one error. -/
theorem nul_byte_not_illegal_counterexample :
    (Lexer.nextToken (Lexer.new ['\x00'])).1.type = .EOF ∧
    TokenType.EOF ≠ .ILLEGAL ∧
    parseProgram 8 (newParser (Lexer.new ['\x00'])) =
      some (⟨[]⟩, ⟨⟨['\x00'], 2⟩, [], ⟨.EOF, ""⟩, ⟨.EOF, ""⟩⟩) ∧
    ¬('\x00' = ' ' || '\x00' = '\t' || '\x00' = '\n' || '\x00' = '\r') ∧
    Lexer.isLetter '\x00' = false ∧ Lexer.isDigit '\x00' = false ∧
    ('\x00' : Char) ∉
      ['=', '+', '-', '!', '/', '*', '<', '>', ';', ',', '(', ')', '\x7b', '\x7d'] :=
  ⟨rfl, by decide, rfl, by decide, rfl, rfl, by decide⟩

/-- C6: equal-precedence operators associate left: `1 - 2 - 3` prints as
`((1 - 2) - 3)`. -/
theorem left_assoc_print : printOf 16 "1 - 2 - 3" = some "((1 - 2) - 3)" := rfl

/-- C5 (amended): the two inputs print as `(a + (b * c))` and
`(((a + (b * c)) + (d / e)) - f)` — fully parenthesised once per infix node,
with no additional outer parentheses added at statement level. -/
theorem precedence_prints :
    printOf 16 "a + b * c" = some "(a + (b * c))" ∧
    printOf 32 "a + b * c + d / e - f" = some "(((a + (b * c)) + (d / e)) - f)" :=
  ⟨rfl, rfl⟩

/-- C5 as stated is false: for `a + b * c` the printed form is
`(a + (b * c))`, not the claimed `((a + (b * c)))` — `ExpressionStatement`
adds no wrapping parentheses. -/
theorem precedence_extra_parens_counterexample :
    printOf 16 "a + b * c" = some "(a + (b * c))" ∧
    "(a + (b * c))" ≠ "((a + (b * c)))" := ⟨rfl, by decide⟩

/-- C7: `if (x < y) { x } else { y }` parses to exactly one
`ExpressionStatement` holding an `IfExpression` whose condition is the
infix `x < y` (printing `(x < y)`), whose consequence is the single
expression statement `x` and whose alternative is `y`; no errors are
recorded and the program prints `if(x < y) xelse y`. -/
theorem if_else_parse :
    parseInput 32 "if (x < y) \x7b x \x7d else \x7b y \x7d" =
      some (⟨[.ExpressionStatement ⟨.IF, "if"⟩ (some (.IfExpression ⟨.IF, "if"⟩
          (some (.InfixExpression ⟨.LT, "<"⟩ (some (.Identifier ⟨⟨.IDENT, "x"⟩, "x"⟩)) "<"
            (some (.Identifier ⟨⟨.IDENT, "y"⟩, "y"⟩))))
          (some (.mk ⟨.LBRACE, "\x7b"⟩ [.ExpressionStatement ⟨.IDENT, "x"⟩
            (some (.Identifier ⟨⟨.IDENT, "x"⟩, "x"⟩))]))
          (some (.mk ⟨.LBRACE, "\x7b"⟩ [.ExpressionStatement ⟨.IDENT, "y"⟩
            (some (.Identifier ⟨⟨.IDENT, "y"⟩, "y"⟩))]))))]⟩,
        ⟨⟨"if (x < y) \x7b x \x7d else \x7b y \x7d".toList, 29⟩, [],
          ⟨.EOF, ""⟩, ⟨.EOF, ""⟩⟩) ∧
    exprString (.InfixExpression ⟨.LT, "<"⟩ (some (.Identifier ⟨⟨.IDENT, "x"⟩, "x"⟩)) "<"
      (some (.Identifier ⟨⟨.IDENT, "y"⟩, "y"⟩))) = some "(x < y)" ∧
    printOf 32 "if (x < y) \x7b x \x7d else \x7b y \x7d" = some "if(x < y) xelse y" :=
  ⟨rfl, rfl, rfl⟩

/-- C8: on `let x 5;` the failing let production records the `expectPeek`
error `expected next token to be =, got INT instead` and yields no node, and
the driver then parses the remaining input (`5`) as an expression statement. -/
theorem let_missing_assign_recovers :
    parseInput 16 "let x 5;" =
      some (⟨[.ExpressionStatement ⟨.INT, "5"⟩ (some (.IntegerLiteral ⟨.INT, "5"⟩ 5))]⟩,
        ⟨⟨"let x 5;".toList, 10⟩, ["expected next token to be =, got INT instead"],
          ⟨.EOF, ""⟩, ⟨.EOF, ""⟩⟩) := rfl

/-- C2 (amended): `parsePrefixExpression` emits its node even when the
operand parse produced no expression, leaving the `Right` slot missing; on
input `!` the returned program holds such a node and `Program.String`
dereferences the missing operand (a nil-pointer panic in Go, modelled as
`none`), while the operand failure itself was recorded as an error. -/
theorem prefix_node_emitted_without_operand :
    (∀ (fuel : Nat) (s s' : ParserState),
      parseExpression fuel PREFIXP s.nextToken = some (none, s') →
      parsePrefixExpression (fuel + 1) s =
        some (some (.PrefixExpression s.currentToken s.currentToken.literal none), s')) ∧
    parseInput 8 "!" =
      some (⟨[.ExpressionStatement ⟨.BANG, "!"⟩
          (some (.PrefixExpression ⟨.BANG, "!"⟩ "!" none))]⟩,
        ⟨⟨"!".toList, 4⟩, ["no prefix parse function for EOF found"],
          ⟨.EOF, ""⟩, ⟨.EOF, ""⟩⟩) ∧
    printOf 8 "!" = none := by
  refine ⟨?_, rfl, rfl⟩
  intro fuel s s' h
  rw [show parsePrefixExpression (fuel + 1) s =
      (match parseExpression fuel PREFIXP s.nextToken with
        | none => none
        | some r =>
          some (some (.PrefixExpression s.currentToken s.currentToken.literal r.1), r.2))
      from rfl, h]

/-- Witness for C2's theorem: the prefix-expression handler at the concrete
state reached on input `!`. -/
theorem prefix_node_emitted_without_operand_witness :
    parsePrefixExpression 2 ⟨⟨"!".toList, 2⟩, [], ⟨.BANG, "!"⟩, ⟨.EOF, ""⟩⟩ =
      some (some (.PrefixExpression ⟨.BANG, "!"⟩ "!" none),
        ⟨⟨"!".toList, 3⟩, ["no prefix parse function for EOF found"],
          ⟨.EOF, ""⟩, ⟨.EOF, ""⟩⟩) :=
  prefix_node_emitted_without_operand.1 1 ⟨⟨"!".toList, 2⟩, [], ⟨.BANG, "!"⟩, ⟨.EOF, ""⟩⟩
    ⟨⟨"!".toList, 3⟩, ["no prefix parse function for EOF found"], ⟨.EOF, ""⟩, ⟨.EOF, ""⟩⟩
    rfl

/-- C2 as stated is false: on input `!` the parser emits a node with its
required `Right` slot missing and `Program.String` dereferences it. -/
theorem printer_derefs_missing_operand_counterexample :
    parseInput 8 "!" =
      some (⟨[.ExpressionStatement ⟨.BANG, "!"⟩
          (some (.PrefixExpression ⟨.BANG, "!"⟩ "!" none))]⟩,
        ⟨⟨"!".toList, 4⟩, ["no prefix parse function for EOF found"],
          ⟨.EOF, ""⟩, ⟨.EOF, ""⟩⟩) ∧
    programString ⟨[.ExpressionStatement ⟨.BANG, "!"⟩
        (some (.PrefixExpression ⟨.BANG, "!"⟩ "!" none))]⟩ = none := ⟨rfl, rfl⟩

/-- C3 (amended): `parseIntegerLiteral` converts with `ParseInt(lit, 0, 64)`
(base **0**): a digit run without a leading zero (or the single digit `0`)
is read as decimal, yielding its decimal value when it fits 64-bit signed
range and the error `could not parse "<lit>" as integer` otherwise; a longer
run with a leading zero is read as **octal** over the remaining digits,
failing on any digit `8`/`9`. -/
theorem parseIntegerLiteral_base0 (s : ParserState) (c : Char) (rest : List Char)
    (hlit : s.currentToken.literal = String.mk (c :: rest))
    (hdig : ∀ d ∈ c :: rest, Lexer.isDigit d = true) :
    (¬(c = '0' ∧ rest ≠ []) → decVal (c :: rest) ≤ maxInt64 →
      parseIntegerLiteral s =
        (some (.IntegerLiteral s.currentToken (decVal (c :: rest))), s)) ∧
    (¬(c = '0' ∧ rest ≠ []) → maxInt64 < decVal (c :: rest) →
      parseIntegerLiteral s = (none, { s with errors := s.errors ++
        ["could not parse \"" ++ s.currentToken.literal ++ "\" as integer"] })) ∧
    (c = '0' → rest ≠ [] → (∀ d ∈ rest, d < '8') → octVal rest ≤ maxInt64 →
      parseIntegerLiteral s =
        (some (.IntegerLiteral s.currentToken (octVal rest)), s)) ∧
    (c = '0' → rest ≠ [] → ¬(∀ d ∈ rest, d < '8') →
      parseIntegerLiteral s = (none, { s with errors := s.errors ++
        ["could not parse \"" ++ s.currentToken.literal ++ "\" as integer"] })) := by
  have hl : s.currentToken.literal.toList = c :: rest := by rw [hlit]; rfl
  refine ⟨fun h1 h2 => ?_, fun h1 h2 => ?_, fun h1 h2 h3 h4 => ?_, fun h1 h2 h3 => ?_⟩
  · rw [parseIntegerLiteral, hl, goParseInt, if_neg h1, if_pos h2]
  · rw [parseIntegerLiteral, hl, goParseInt, if_neg h1, if_neg (by omega)]
  · have hall : rest.all (fun d => d < '8') = true := by
      simpa [List.all_eq_true] using h3
    rw [parseIntegerLiteral, hl, goParseInt, if_pos ⟨h1, h2⟩, if_pos hall, if_pos h4]
  · have hall : ¬(rest.all (fun d => d < '8') = true) := by
      simpa [List.all_eq_true] using h3
    rw [parseIntegerLiteral, hl, goParseInt, if_pos ⟨h1, h2⟩, if_neg hall]

/-- Witness for C3's theorem: the literal `7` at a concrete parser state. -/
theorem parseIntegerLiteral_base0_witness :
    parseIntegerLiteral ⟨⟨[], 0⟩, [], ⟨.INT, "7"⟩, ⟨.EOF, ""⟩⟩ =
      (some (.IntegerLiteral ⟨.INT, "7"⟩ 7), ⟨⟨[], 0⟩, [], ⟨.INT, "7"⟩, ⟨.EOF, ""⟩⟩) :=
  (parseIntegerLiteral_base0 ⟨⟨[], 0⟩, [], ⟨.INT, "7"⟩, ⟨.EOF, ""⟩⟩ '7' [] rfl
    (by decide)).1 (by decide) (by decide)

/-- C3 as stated is false: the lexer tags `010` as `INT`; its decimal value
`10` fits 64-bit signed range, yet the parser stores `8` (octal), not `10`. -/
theorem integer_literal_octal_counterexample :
    parseInput 8 "010" =
      some (⟨[.ExpressionStatement ⟨.INT, "010"⟩
          (some (.IntegerLiteral ⟨.INT, "010"⟩ 8))]⟩,
        ⟨⟨"010".toList, 5⟩, [], ⟨.EOF, ""⟩, ⟨.EOF, ""⟩⟩) ∧
    decVal ("010".toList) = 10 ∧ (8 : Int) ≠ 10 := ⟨rfl, rfl, by decide⟩

end Monkey
